import Mathlib

/-!
Shallow embedding of `src/app.py` (a Streamlit document-to-markdown
converter) and proofs of the spec's claims about it.

The program is UI glue around two external calls: the MarkItDown
conversion library and an optional OpenAI client used only for image
description.  Both are modelled as environment oracles attached to each
uploaded file: `save_error` is the outcome of writing the uploaded bytes
to disk (`save_uploaded_file`, app.py 37-46), and `convert` is the
outcome of `md.convert(...)` inside `convert_to_markdown` (app.py 48-68).
Pure helpers (`is_image_file`, `get_file_icon`, directory setup, path
manipulation) are translated directly; the Python standard library's
`mimetypes.guess_type` and `os.path.splitext` / `pathlib.Path.stem` are
embedded as character-list computations mirroring CPython's algorithms,
with the extension-to-MIME table restricted to common entries of
CPython's `mimetypes.types_map`.

Side effects visible to the user (progress bar, status line, warnings,
errors, file writes, converter construction) are recorded as an ordered
trace of `UIEvent`s, so that claims about what is reported, skipped,
saved or written can be stated as facts about the trace.
-/

namespace App

/-! Path helpers: model of CPython `posixpath` / `pathlib` behaviour. -/

/-- Character-list model of Python `str.lower` (ASCII as used here). -/
def strLower (s : String) : String :=
  String.mk (s.toList.map Char.toLower)

/-- Character-list model of Python `str.startswith`. -/
def strStartsWith (s pre : String) : Bool :=
  pre.toList.isPrefixOf s.toList

/-- Character-list model of Python `str.endswith`. -/
def strEndsWith (s suf : String) : Bool :=
  suf.toList.isSuffixOf s.toList

/-- Final path component: the characters after the last `/` (the whole
string when it has no `/`). -/
def lastComponent (p : String) : String :=
  String.mk ((p.toList.reverse.takeWhile (fun c => c != '/')).reverse)

/-- Model of CPython `os.path.splitext` applied to a path's final
component `b`: split at the last dot, except that a dot preceded only by
dots (e.g. `.bashrc`, `..`) starts no extension. Returns
`(root, extension-with-dot)`. -/
def splitext (b : String) : String × String :=
  let cs := b.toList
  let rev := cs.reverse
  let revExt := rev.takeWhile (fun c => c != '.')
  let rest := rev.dropWhile (fun c => c != '.')
  match rest with
  | [] => (b, "")
  | _ :: revRoot =>
    if revRoot.any (fun c => c != '.') then
      (String.mk revRoot.reverse, String.mk ('.' :: revExt.reverse))
    else
      (b, "")

/-- Model of CPython `pathlib.PurePath.stem`: the final component minus
its suffix, where the suffix starts at the last dot provided that dot is
neither the first nor the last character of the component. -/
def pathStem (p : String) : String :=
  let nm := lastComponent p
  let rev := nm.toList.reverse
  let revExt := rev.takeWhile (fun c => c != '.')
  let rest := rev.dropWhile (fun c => c != '.')
  match rest with
  | [] => nm
  | _ :: revRoot =>
    if revRoot ≠ [] ∧ revExt ≠ [] then String.mk revRoot.reverse else nm

/-! MIME classification (app.py 17-35). -/

/-- Common entries of CPython `mimetypes.types_map`, keyed by lowercase
extension; the subset relevant to the file types this app advertises. -/
def extensionMimeTable : List (String × String) :=
  [(".png", "image/png"), (".jpg", "image/jpeg"), (".jpeg", "image/jpeg"),
   (".gif", "image/gif"), (".bmp", "image/bmp"), (".svg", "image/svg+xml"),
   (".webp", "image/webp"), (".tiff", "image/tiff"), (".tif", "image/tiff"),
   (".ico", "image/vnd.microsoft.icon"), (".heic", "image/heic"),
   (".pdf", "application/pdf"), (".txt", "text/plain"),
   (".html", "text/html"), (".htm", "text/html"),
   (".doc", "application/msword"),
   (".docx", "application/vnd.openxmlformats-officedocument.wordprocessingml.document"),
   (".xls", "application/vnd.ms-excel"),
   (".xlsx", "application/vnd.openxmlformats-officedocument.spreadsheetml.sheet"),
   (".zip", "application/zip"), (".csv", "text/csv"),
   (".json", "application/json"), (".md", "text/markdown"),
   (".xml", "text/xml")]

/-- Model of CPython `mimetypes.guess_type`: take the extension of the
final component, lowercase it, and look it up in the type table; `none`
when the extension is missing or unrecognized. -/
def guess_type (p : String) : Option String :=
  let ext := strLower (splitext (lastComponent p)).2
  (extensionMimeTable.find? (fun e => e.1 == ext)).map Prod.snd

/-- app.py 32-35: a file is an image when its guessed MIME type exists
and starts with `image/`. -/
def is_image_file (filename : String) : Bool :=
  match guess_type filename with
  | some mimetype => strStartsWith mimetype "image/"
  | none => false

/-- app.py 17-30: emoji icon from the file name. -/
def get_file_icon (filename : String) : String :=
  if is_image_file filename then "🖼️"
  else if strEndsWith filename ".pdf" then "📄"
  else if strEndsWith filename ".doc" || strEndsWith filename ".docx" then "📝"
  else if strEndsWith filename ".xls" || strEndsWith filename ".xlsx" then "📊"
  else if strEndsWith filename ".txt" then "📋"
  else "📎"

/-! Directory setup (app.py 10-15). -/

/-- Model of `os.makedirs(dir_name, exist_ok=True)` on a filesystem
modelled as the list of existing directories: create the directory only
when absent. -/
def makedirs (fs : List String) (dir_name : String) : List String :=
  if dir_name ∈ fs then fs else fs ++ [dir_name]

/-- app.py 10-15: create `documents` and `converted` if absent, return
both paths. -/
def setup_directories (fs : List String) : List String × String × String :=
  let fs1 := makedirs fs "documents"
  let fs2 := makedirs fs1 "converted"
  (fs2, "documents", "converted")

/-! Data model. -/

instance {ε α : Type} [DecidableEq ε] [DecidableEq α] : DecidableEq (Except ε α) :=
  fun a b =>
    match a, b with
    | Except.ok x, Except.ok y => decidable_of_iff (x = y) (by simp)
    | Except.error x, Except.error y => decidable_of_iff (x = y) (by simp)
    | Except.ok _, Except.error _ => isFalse (fun h => Except.noConfusion h)
    | Except.error _, Except.ok _ => isFalse (fun h => Except.noConfusion h)

/-- An uploaded file together with the environment's behaviour on it:
`save_error` is `some e` when writing the uploaded bytes raises the
exception `e` (app.py 41-44), and `convert` is the outcome of the
MarkItDown `md.convert` call (app.py 59): markdown text or a raised
exception's message. -/
structure FileInput where
  name : String
  save_error : Option String
  convert : Except String String
deriving Repr, DecidableEq

/-- One entry of `st.session_state.converted_files` (app.py 231-236). -/
structure ConvertedFile where
  name : String
  path : String
  content : String
  is_image : Bool
deriving Repr, DecidableEq

/-- Which MarkItDown converter is constructed (app.py 51-57): with an AI
client and model name, or plain. -/
inductive Converter where
  | withLLM (llm_client : String) (llm_model : String)
  | plain
deriving Repr, DecidableEq

/-- Observable side effects of one rerun of the script, in order. -/
inductive UIEvent where
  | progress (num den : Nat)
  | status (msg : String)
  | warning (msg : String)
  | errorMsg (msg : String)
  | fileSaved (path : String)
  | convertInvoked (conv : Converter) (path : String)
  | fileWritten (path : String) (content : String)
  | clearProgress
  | clearStatus
deriving Repr, DecidableEq

/-- app.py 198: `OpenAI(api_key=openai_api_key) if openai_api_key else
None` — a client (identified by its key) exists iff the key is a
non-empty string. -/
def openaiClientOf (key : String) : Option String :=
  if key = "" then none else some key

/-- app.py 51-57: the converter configuration `convert_to_markdown`
constructs — the AI client and the model `gpt-4o` are passed exactly
when the path is classified as an image and a client is present. -/
def mkMarkItDown (file_path : String) (openai_client : Option String) : Converter :=
  match openai_client with
  | some c =>
    if is_image_file file_path then Converter.withLLM c "gpt-4o" else Converter.plain
  | none => Converter.plain

/-- app.py 37-46 `save_uploaded_file`: write the blob to
`save_dir/name`; on an exception report `Error saving file: e` and
return `None`. -/
def save_uploaded_file (f : FileInput) (save_dir : String) :
    Option String × List UIEvent :=
  match f.save_error with
  | none =>
    (some (save_dir ++ "/" ++ f.name),
     [UIEvent.fileSaved (save_dir ++ "/" ++ f.name)])
  | some e => (none, [UIEvent.errorMsg ("Error saving file: " ++ e)])

/-- app.py 48-68 `convert_to_markdown`: build the converter, invoke it
on the file path; on success write `output_dir/stem.md` and return the
path and text, on an exception report `Error converting file: e` and
return `(None, None)` (modelled as `none`). -/
def convert_to_markdown (f : FileInput) (file_path : String) (output_dir : String)
    (openai_client : Option String) : Option (String × String) × List UIEvent :=
  let md := mkMarkItDown file_path openai_client
  match f.convert with
  | Except.ok text_content =>
    let output_path := output_dir ++ "/" ++ pathStem file_path ++ ".md"
    (some (output_path, text_content),
     [UIEvent.convertInvoked md file_path,
      UIEvent.fileWritten output_path text_content])
  | Except.error e =>
    (none,
     [UIEvent.convertInvoked md file_path,
      UIEvent.errorMsg ("Error converting file: " ++ e)])

/-! The conversion loop (app.py 196-243). -/

/-- The loop's accumulated state: `combined` is the `combined_content`
list, `records` the `converted_files` session list, `events` the UI
trace. -/
structure RunState where
  combined : List String
  records : List ConvertedFile
  events : List UIEvent
deriving Repr, DecidableEq

def RunState.emptyS : RunState := ⟨[], [], []⟩

def RunState.append (a b : RunState) : RunState :=
  ⟨a.combined ++ b.combined, a.records ++ b.records, a.events ++ b.events⟩

/-- One iteration of the loop at app.py 205-236 for the file at index
`idx` of `total` uploaded files: report progress `(idx+1)/total` and the
processing status, skip images when the key is empty (with a warning),
otherwise save, convert, and on success append the header plus content
to the combined list and the record to the session list. -/
def processFile (key docs_dir converted_dir : String) (total idx : Nat)
    (f : FileInput) (st : RunState) : RunState :=
  let st1 : RunState :=
    { st with events := st.events ++
        [UIEvent.progress (idx + 1) total,
         UIEvent.status ("Processing: " ++ f.name)] }
  if is_image_file f.name = true ∧ key = "" then
    { st1 with events := st1.events ++
        [UIEvent.warning ("⚠️ Skipping " ++ f.name ++ " - OpenAI API Key required")] }
  else
    match save_uploaded_file f docs_dir with
    | (none, evs) => { st1 with events := st1.events ++ evs }
    | (some file_path, evs) =>
      let st2 : RunState := { st1 with events := st1.events ++ evs }
      match convert_to_markdown f file_path converted_dir (openaiClientOf key) with
      | (none, evs2) => { st2 with events := st2.events ++ evs2 }
      | (some (output_path, content), evs2) =>
        { combined := st2.combined ++ ["\n## " ++ f.name ++ "\n", content],
          records := st2.records ++
            [{ name := f.name, path := output_path, content := content,
               is_image := is_image_file f.name }],
          events := st2.events ++ evs2 }

/-- The `for idx, uploaded_file in enumerate(...)` loop (app.py 205). -/
def runFilesAux (key docs_dir converted_dir : String) (total : Nat) :
    Nat → List FileInput → RunState → RunState
  | _, [], st => st
  | idx, f :: fs, st =>
    runFilesAux key docs_dir converted_dir total (idx + 1) fs
      (processFile key docs_dir converted_dir total idx f st)

/-- Result of one conversion run: the joined combined markdown, the
session's converted-file records, and the UI trace. -/
structure RunResult where
  combined_markdown : String
  converted_files : List ConvertedFile
  events : List UIEvent
deriving Repr, DecidableEq

/-- app.py 198-243: run the loop over all uploaded files starting from
empty `combined_content` and `converted_files`, clear the progress bar
and status container, and join the combined list with newlines. -/
def runConversion (key : String) (files : List FileInput) : RunResult :=
  let st := runFilesAux key "documents" "converted" files.length 0 files RunState.emptyS
  { combined_markdown := String.intercalate "\n" st.combined
    converted_files := st.records
    events := st.events ++ [UIEvent.clearProgress, UIEvent.clearStatus] }

/-! Session state and the convert button (app.py 70-85, 130-135, 196-243). -/

structure SessionState where
  uploaded_files : List FileInput
  converted_files : List ConvertedFile
  combined_markdown : String
  conversion_started : Bool
deriving Repr

/-- app.py 132-135: pressing `🚀 Convert Files` sets the started flag
and resets the converted-files list and the combined markdown. -/
def convertButton (s : SessionState) : SessionState :=
  { s with conversion_started := true, converted_files := [], combined_markdown := "" }

/-- app.py 196-243 as a state transformer: process the uploaded files
only when conversion has started and no converted files are held yet. -/
def mainProcess (key : String) (s : SessionState) : SessionState × List UIEvent :=
  if s.conversion_started = true ∧ s.converted_files = [] then
    let res := runConversion key s.uploaded_files
    ({ s with converted_files := res.converted_files,
              combined_markdown := res.combined_markdown }, res.events)
  else (s, [])

/-! Downloads (app.py 249-278). -/

structure Download where
  label : String
  payload : String
  file_name : String
  mime : String
deriving Repr, DecidableEq

/-- app.py 249-278: the download buttons offered after a run — the
combined file named with a timestamp, then one button per converted
record carrying that record's content. -/
def downloadsOf (res : RunResult) (timestamp : String) : List Download :=
  { label := "📥 Download All as Single File"
    payload := res.combined_markdown
    file_name := "combined_markdown_" ++ timestamp ++ ".md"
    mime := "text/markdown" } ::
  res.converted_files.map (fun fi =>
    { label := "📥 Download " ++ fi.name ++ ".md"
      payload := fi.content
      file_name := fi.name ++ ".md"
      mime := "text/markdown" })

/-! Derived observation helpers. -/

/-- The header-plus-content block a record contributes to the combined
list (app.py 227-228). -/
def blockOf (r : ConvertedFile) : List String :=
  ["\n## " ++ r.name ++ "\n", r.content]

/-- The on-disk writes performed during a trace, in order. -/
def writesOf (evs : List UIEvent) : List (String × String) :=
  evs.filterMap (fun e =>
    match e with
    | UIEvent.fileWritten p c => some (p, c)
    | _ => none)

/-- The content an on-disk path holds after a trace: the last write to
it, if any. -/
def lastWrite (evs : List UIEvent) (p : String) : Option String :=
  ((writesOf evs).reverse.find? (fun w => w.1 == p)).map Prod.snd

/-- The records one file contributes to the session list: none when
skipped or failed, exactly one on success (closed form of
`processFile`'s record delta). -/
def fileRecords (key docs_dir converted_dir : String) (f : FileInput) :
    List ConvertedFile :=
  if is_image_file f.name = true ∧ key = "" then []
  else
    match f.save_error with
    | some _ => []
    | none =>
      match f.convert with
      | Except.error _ => []
      | Except.ok content =>
        [{ name := f.name,
           path := converted_dir ++ "/" ++ pathStem (docs_dir ++ "/" ++ f.name) ++ ".md",
           content := content,
           is_image := is_image_file f.name }]

/-- The trace events one file contributes after its progress and status
reports (closed form of `processFile`'s event delta). -/
def fileTailEvents (key docs_dir converted_dir : String) (f : FileInput) :
    List UIEvent :=
  if is_image_file f.name = true ∧ key = "" then
    [UIEvent.warning ("⚠️ Skipping " ++ f.name ++ " - OpenAI API Key required")]
  else
    match f.save_error with
    | some e => [UIEvent.errorMsg ("Error saving file: " ++ e)]
    | none =>
      let file_path := docs_dir ++ "/" ++ f.name
      let md := mkMarkItDown file_path (openaiClientOf key)
      match f.convert with
      | Except.ok content =>
        [UIEvent.fileSaved file_path,
         UIEvent.convertInvoked md file_path,
         UIEvent.fileWritten (converted_dir ++ "/" ++ pathStem file_path ++ ".md") content]
      | Except.error e =>
        [UIEvent.fileSaved file_path,
         UIEvent.convertInvoked md file_path,
         UIEvent.errorMsg ("Error converting file: " ++ e)]

/-- The whole loop's trace in closed form. -/
def loopEvents (key docs_dir converted_dir : String) (total : Nat) :
    Nat → List FileInput → List UIEvent
  | _, [] => []
  | idx, f :: fs =>
    UIEvent.progress (idx + 1) total ::
    UIEvent.status ("Processing: " ++ f.name) ::
    (fileTailEvents key docs_dir converted_dir f ++
     loopEvents key docs_dir converted_dir total (idx + 1) fs)

/-! Helper lemmas. -/

theorem takeWhile_append_sat {α : Type} (p : α → Bool) :
    ∀ (l1 : List α) (x : α) (l2 : List α), (∀ y ∈ l1, p y = true) → p x = false →
      (l1 ++ x :: l2).takeWhile p = l1
  | [], x, l2, _, hx => by simp [List.takeWhile_cons, hx]
  | y :: l1, x, l2, h, hx => by
    have hy : p y = true := h y (by simp)
    simp only [List.cons_append, List.takeWhile_cons, hy, if_true]
    rw [takeWhile_append_sat p l1 x l2 (fun z hz => h z (by simp [hz])) hx]

theorem lastComponent_of_no_slash (n : String) (h : '/' ∉ n.toList) :
    lastComponent n = n := by
  unfold lastComponent
  have hall : ∀ c ∈ n.toList.reverse, (c != '/') = true := by
    intro c hc
    have hc' : c ∈ n.toList := List.mem_reverse.mp hc
    have : c ≠ '/' := fun he => h (he ▸ hc')
    simpa using this
  rw [List.takeWhile_eq_self_iff.mpr hall, List.reverse_reverse]
  rfl

theorem lastComponent_append_slash (d n : String) (h : '/' ∉ n.toList) :
    lastComponent (d ++ "/" ++ n) = n := by
  unfold lastComponent
  have hl : (d ++ "/" ++ n).toList = (d.toList ++ ['/']) ++ n.toList := rfl
  have hall : ∀ c ∈ n.toList.reverse, (c != '/') = true := by
    intro c hc
    have hc' : c ∈ n.toList := List.mem_reverse.mp hc
    have : c ≠ '/' := fun he => h (he ▸ hc')
    simpa using this
  rw [hl, List.reverse_append, List.reverse_append]
  have : ((['/'] : List Char).reverse ++ d.toList.reverse) = '/' :: d.toList.reverse := rfl
  rw [this,
    takeWhile_append_sat (fun c => c != '/') n.toList.reverse '/' d.toList.reverse
      hall (by decide),
    List.reverse_reverse]
  rfl

theorem pathStem_prepend (d n : String) (h : '/' ∉ n.toList) :
    pathStem (d ++ "/" ++ n) = pathStem n := by
  unfold pathStem
  rw [lastComponent_append_slash d n h, lastComponent_of_no_slash n h]

theorem processFile_eq (key docs_dir converted_dir : String) (total idx : Nat)
    (f : FileInput) (st : RunState) :
    processFile key docs_dir converted_dir total idx f st =
      { combined := st.combined ++ (fileRecords key docs_dir converted_dir f).flatMap blockOf,
        records := st.records ++ fileRecords key docs_dir converted_dir f,
        events := st.events ++
          (UIEvent.progress (idx + 1) total ::
           UIEvent.status ("Processing: " ++ f.name) ::
           fileTailEvents key docs_dir converted_dir f) } := by
  rcases f with ⟨name, serr, conv⟩
  by_cases h : is_image_file name = true ∧ key = ""
  · simp [processFile, fileRecords, fileTailEvents, h]
  · cases serr with
    | some e =>
      simp [processFile, fileRecords, fileTailEvents, save_uploaded_file, h]
    | none =>
      cases conv with
      | ok content =>
        simp [processFile, fileRecords, fileTailEvents, save_uploaded_file,
              convert_to_markdown, blockOf, h, List.append_assoc]
      | error e =>
        simp [processFile, fileRecords, fileTailEvents, save_uploaded_file,
              convert_to_markdown, h, List.append_assoc]

theorem runFilesAux_eq (key docs_dir converted_dir : String) (total : Nat)
    (fs : List FileInput) : ∀ (idx : Nat) (st : RunState),
    runFilesAux key docs_dir converted_dir total idx fs st =
      { combined := st.combined ++
          (fs.flatMap (fileRecords key docs_dir converted_dir)).flatMap blockOf,
        records := st.records ++ fs.flatMap (fileRecords key docs_dir converted_dir),
        events := st.events ++ loopEvents key docs_dir converted_dir total idx fs } := by
  induction fs with
  | nil => intro idx st; simp [runFilesAux, loopEvents]
  | cons f fs ih =>
    intro idx st
    simp only [runFilesAux]
    rw [ih, processFile_eq]
    simp [loopEvents, List.append_assoc, List.flatMap_cons, List.flatMap_append]

theorem runConversion_records (key : String) (files : List FileInput) :
    (runConversion key files).converted_files
      = files.flatMap (fileRecords key "documents" "converted") := by
  simp [runConversion, runFilesAux_eq, RunState.emptyS]

theorem runConversion_combined (key : String) (files : List FileInput) :
    (runConversion key files).combined_markdown
      = String.intercalate "\n"
          ((files.flatMap (fileRecords key "documents" "converted")).flatMap blockOf) := by
  simp [runConversion, runFilesAux_eq, RunState.emptyS]

theorem runConversion_events (key : String) (files : List FileInput) :
    (runConversion key files).events
      = loopEvents key "documents" "converted" files.length 0 files
        ++ [UIEvent.clearProgress, UIEvent.clearStatus] := by
  simp [runConversion, runFilesAux_eq, RunState.emptyS]

theorem status_mem_loopEvents (key d c : String) (N : Nat) (f : FileInput) :
    ∀ (fs : List FileInput) (i : Nat), f ∈ fs →
      UIEvent.status ("Processing: " ++ f.name) ∈ loopEvents key d c N i fs := by
  intro fs
  induction fs with
  | nil => intro i h; cases h
  | cons g fs ih =>
    intro i hf
    rcases List.mem_cons.mp hf with h | h
    · subst h
      simp [loopEvents]
    · simp only [loopEvents, List.mem_cons, List.mem_append]
      exact Or.inr (Or.inr (Or.inr (ih (i + 1) h)))

theorem fileTail_mem_loopEvents (key d c : String) (N : Nat) (f : FileInput)
    (e : UIEvent) (he : e ∈ fileTailEvents key d c f) :
    ∀ (fs : List FileInput) (i : Nat), f ∈ fs → e ∈ loopEvents key d c N i fs := by
  intro fs
  induction fs with
  | nil => intro i h; cases h
  | cons g fs ih =>
    intro i hf
    rcases List.mem_cons.mp hf with h | h
    · subst h
      simp only [loopEvents, List.mem_cons, List.mem_append]
      exact Or.inr (Or.inr (Or.inl he))
    · simp only [loopEvents, List.mem_cons, List.mem_append]
      exact Or.inr (Or.inr (Or.inr (ih (i + 1) h)))

theorem loopEvents_progress_status (key d c : String) (N : Nat) :
    ∀ (fs : List FileInput) (i j : Nat) (h : j < fs.length),
      ∃ pre suf, loopEvents key d c N i fs =
        pre ++ UIEvent.progress (i + j + 1) N ::
               UIEvent.status ("Processing: " ++ (fs.get ⟨j, h⟩).name) :: suf := by
  intro fs
  induction fs with
  | nil => intro i j h; exact absurd h (by simp)
  | cons f fs ih =>
    intro i j h
    cases j with
    | zero =>
      refine ⟨[], fileTailEvents key d c f ++ loopEvents key d c N (i + 1) fs, ?_⟩
      simp [loopEvents]
    | succ j =>
      obtain ⟨pre, suf, hps⟩ := ih (i + 1) j (Nat.lt_of_succ_lt_succ h)
      refine ⟨UIEvent.progress (i + 1) N ::
              UIEvent.status ("Processing: " ++ f.name) ::
              (fileTailEvents key d c f ++ pre), suf, ?_⟩
      have harith : i + 1 + j + 1 = i + (j + 1) + 1 := by omega
      simp only [loopEvents, List.get_cons_succ]
      rw [hps, harith]
      simp [List.append_assoc]

theorem flatMap_fileRecords_names (key d c : String) :
    ∀ (files : List FileInput),
      (∀ f ∈ files, is_image_file f.name = false ∧ f.save_error = none
        ∧ ∃ cc, f.convert = Except.ok cc) →
      (files.flatMap (fileRecords key d c)).map ConvertedFile.name
        = files.map FileInput.name := by
  intro files
  induction files with
  | nil => intro _; simp
  | cons f fs ih =>
    intro hall
    obtain ⟨h1, h2, cc, h3⟩ := hall f (by simp)
    have ih' := ih (fun g hg => hall g (by simp [hg]))
    simp [List.flatMap_cons, fileRecords, h1, h2, h3, ih']

theorem mem_makedirs_self (fs : List String) (d : String) : d ∈ makedirs fs d := by
  by_cases h : d ∈ fs <;> simp [makedirs, h]

theorem mem_makedirs_of_mem (fs : List String) (d e : String) (h : e ∈ fs) :
    e ∈ makedirs fs d := by
  by_cases hd : d ∈ fs <;> simp [makedirs, hd, h]

theorem makedirs_of_mem (fs : List String) (d : String) (h : d ∈ fs) :
    makedirs fs d = fs := by
  simp [makedirs, h]

theorem writesOf_append (evs evs' : List UIEvent) :
    writesOf (evs ++ evs') = writesOf evs ++ writesOf evs' := by
  simp [writesOf, List.filterMap_append]

theorem writesOf_loopEvents (key d c : String) (N : Nat) :
    ∀ (fs : List FileInput) (i : Nat),
      writesOf (loopEvents key d c N i fs)
        = fs.flatMap (fun f => writesOf (fileTailEvents key d c f)) := by
  intro fs
  induction fs with
  | nil => intro i; simp [loopEvents, writesOf]
  | cons f fs ih =>
    intro i
    simp only [loopEvents, List.flatMap_cons]
    rw [writesOf, List.filterMap_cons, List.filterMap_cons, List.filterMap_append]
    rw [← writesOf, ← writesOf, ih (i + 1)]

theorem writesOf_runConversion (key : String) (files : List FileInput) :
    writesOf (runConversion key files).events
      = files.flatMap (fun f => writesOf (fileTailEvents key "documents" "converted" f)) := by
  rw [runConversion_events, writesOf_append,
    writesOf_loopEvents key "documents" "converted" files.length files 0]
  simp [writesOf]

/-! The claims. -/

/-- Claim C1: after every completed conversion run, the combined
markdown buffer is exactly the newline-join of one header block
(`"\n## " ++ name ++ "\n"`) plus content per held record, in upload
order; when all `N` uploaded files are non-image and convert
successfully the records (hence the blocks) are exactly the `N` files in
upload order, and skipped or failed files contribute nothing since the
buffer is derived from the records alone. -/
theorem claim_C1 (key : String) (files : List FileInput) :
    (runConversion key files).combined_markdown
      = String.intercalate "\n"
          ((runConversion key files).converted_files.flatMap blockOf)
    ∧ ((∀ f ∈ files, is_image_file f.name = false ∧ f.save_error = none
          ∧ ∃ cc, f.convert = Except.ok cc) →
        (runConversion key files).converted_files.map ConvertedFile.name
          = files.map FileInput.name) := by
  constructor
  · rw [runConversion_combined, runConversion_records]
  · intro hall
    rw [runConversion_records]
    exact flatMap_fileRecords_names key "documents" "converted" files hall

theorem claim_C1_witness :
    (runConversion "" [⟨"a.txt", none, Except.ok "A"⟩, ⟨"b.pdf", none, Except.ok "B"⟩]).combined_markdown
      = String.intercalate "\n"
          ((runConversion "" [⟨"a.txt", none, Except.ok "A"⟩, ⟨"b.pdf", none, Except.ok "B"⟩]).converted_files.flatMap blockOf)
    ∧ (runConversion "" [⟨"a.txt", none, Except.ok "A"⟩, ⟨"b.pdf", none, Except.ok "B"⟩]).converted_files.map ConvertedFile.name
      = ["a.txt", "b.pdf"] := by
  have h := claim_C1 "" [⟨"a.txt", none, Except.ok "A"⟩, ⟨"b.pdf", none, Except.ok "B"⟩]
  refine ⟨h.1, ?_⟩
  have h2 := h.2 ?hall
  · simpa using h2
  case hall =>
    intro f hf
    simp only [List.mem_cons, List.not_mem_nil, or_false] at hf
    rcases hf with rfl | rfl
    · exact ⟨by decide, rfl, "A", rfl⟩
    · exact ⟨by decide, rfl, "B", rfl⟩

/-- Claim C2: when the conversion call raises for a file that reached
it, the exception is caught inside `convert_to_markdown` and surfaced as
the error `Error converting file: e`; the file is treated as no output —
its iteration emits no `fileWritten` event, so it yields no output file,
and the run's on-disk writes, records and buffer all equal those of the
run without it — and every later file is still processed. -/
theorem claim_C2 (key : String) (xs ys : List FileInput) (x : FileInput) (m : String)
    (hconv : x.convert = Except.error m)
    (hreach : ¬ (is_image_file x.name = true ∧ key = ""))
    (hsave : x.save_error = none) :
    UIEvent.errorMsg ("Error converting file: " ++ m)
        ∈ (runConversion key (xs ++ x :: ys)).events
    ∧ (∀ p content, UIEvent.fileWritten p content
        ∉ fileTailEvents key "documents" "converted" x)
    ∧ writesOf (runConversion key (xs ++ x :: ys)).events
        = writesOf (runConversion key (xs ++ ys)).events
    ∧ (runConversion key (xs ++ x :: ys)).converted_files
        = (runConversion key (xs ++ ys)).converted_files
    ∧ (runConversion key (xs ++ x :: ys)).combined_markdown
        = (runConversion key (xs ++ ys)).combined_markdown
    ∧ (∀ f ∈ ys, UIEvent.status ("Processing: " ++ f.name)
        ∈ (runConversion key (xs ++ x :: ys)).events) := by
  have hx : fileRecords key "documents" "converted" x = [] := by
    simp [fileRecords, hreach, hsave, hconv]
  have htx : fileTailEvents key "documents" "converted" x
      = [UIEvent.fileSaved ("documents" ++ "/" ++ x.name),
         UIEvent.convertInvoked
           (mkMarkItDown ("documents" ++ "/" ++ x.name) (openaiClientOf key))
           ("documents" ++ "/" ++ x.name),
         UIEvent.errorMsg ("Error converting file: " ++ m)] := by
    simp [fileTailEvents, hreach, hsave, hconv]
  have he : UIEvent.errorMsg ("Error converting file: " ++ m)
      ∈ fileTailEvents key "documents" "converted" x := by
    rw [htx]; simp
  have hwx : writesOf (fileTailEvents key "documents" "converted" x) = [] := by
    rw [htx]; simp [writesOf]
  refine ⟨?_, ?_, ?_, ?_, ?_, ?_⟩
  · rw [runConversion_events]
    exact List.mem_append.mpr (Or.inl
      (fileTail_mem_loopEvents key "documents" "converted" _ x _ he
        (xs ++ x :: ys) 0 (by simp)))
  · intro p content
    rw [htx]
    simp
  · rw [writesOf_runConversion, writesOf_runConversion]
    simp [List.flatMap_append, List.flatMap_cons, hwx]
  · rw [runConversion_records, runConversion_records]
    simp [List.flatMap_append, List.flatMap_cons, hx]
  · rw [runConversion_combined, runConversion_combined]
    simp [List.flatMap_append, List.flatMap_cons, hx]
  · intro f hf
    rw [runConversion_events]
    exact List.mem_append.mpr (Or.inl
      (status_mem_loopEvents key "documents" "converted" _ f
        (xs ++ x :: ys) 0 (by simp [hf])))

theorem claim_C2_witness :
    UIEvent.errorMsg ("Error converting file: " ++ "boom")
        ∈ (runConversion "k" ([⟨"a.txt", none, Except.ok "A"⟩] ++ ⟨"bad.pdf", none, Except.error "boom"⟩ :: [⟨"c.txt", none, Except.ok "C"⟩])).events
    ∧ (∀ p content, UIEvent.fileWritten p content
        ∉ fileTailEvents "k" "documents" "converted" ⟨"bad.pdf", none, Except.error "boom"⟩)
    ∧ writesOf (runConversion "k" ([⟨"a.txt", none, Except.ok "A"⟩] ++ ⟨"bad.pdf", none, Except.error "boom"⟩ :: [⟨"c.txt", none, Except.ok "C"⟩])).events
        = writesOf (runConversion "k" ([⟨"a.txt", none, Except.ok "A"⟩] ++ [⟨"c.txt", none, Except.ok "C"⟩])).events
    ∧ (runConversion "k" ([⟨"a.txt", none, Except.ok "A"⟩] ++ ⟨"bad.pdf", none, Except.error "boom"⟩ :: [⟨"c.txt", none, Except.ok "C"⟩])).converted_files
        = (runConversion "k" ([⟨"a.txt", none, Except.ok "A"⟩] ++ [⟨"c.txt", none, Except.ok "C"⟩])).converted_files
    ∧ (runConversion "k" ([⟨"a.txt", none, Except.ok "A"⟩] ++ ⟨"bad.pdf", none, Except.error "boom"⟩ :: [⟨"c.txt", none, Except.ok "C"⟩])).combined_markdown
        = (runConversion "k" ([⟨"a.txt", none, Except.ok "A"⟩] ++ [⟨"c.txt", none, Except.ok "C"⟩])).combined_markdown
    ∧ (∀ f ∈ [(⟨"c.txt", none, Except.ok "C"⟩ : FileInput)],
        UIEvent.status ("Processing: " ++ f.name)
          ∈ (runConversion "k" ([⟨"a.txt", none, Except.ok "A"⟩] ++ ⟨"bad.pdf", none, Except.error "boom"⟩ :: [⟨"c.txt", none, Except.ok "C"⟩])).events) :=
  claim_C2 "k" [⟨"a.txt", none, Except.ok "A"⟩] [⟨"c.txt", none, Except.ok "C"⟩]
    ⟨"bad.pdf", none, Except.error "boom"⟩ "boom" rfl (by decide) rfl

/-- Claim C3: an image file processed with an empty credential is
skipped with exactly one warning notice (and no error): its iteration
only appends the progress report, the status report and the warning to
the trace — no save, no converter invocation, no record, no combined
content — and the loop's outcome equals the run without that file. -/
theorem claim_C3 (docs_dir converted_dir : String) (N i : Nat) (x : FileInput)
    (st : RunState) (xs ys : List FileInput)
    (himg : is_image_file x.name = true) :
    processFile "" docs_dir converted_dir N i x st =
      { st with events := st.events ++
          [UIEvent.progress (i + 1) N,
           UIEvent.status ("Processing: " ++ x.name),
           UIEvent.warning ("⚠️ Skipping " ++ x.name ++ " - OpenAI API Key required")] }
    ∧ (runConversion "" (xs ++ x :: ys)).converted_files
        = (runConversion "" (xs ++ ys)).converted_files
    ∧ (runConversion "" (xs ++ x :: ys)).combined_markdown
        = (runConversion "" (xs ++ ys)).combined_markdown
    ∧ (∀ f ∈ ys, UIEvent.status ("Processing: " ++ f.name)
        ∈ (runConversion "" (xs ++ x :: ys)).events) := by
  have hx : fileRecords "" docs_dir converted_dir x = [] := by
    simp [fileRecords, himg]
  have hx' : fileRecords "" "documents" "converted" x = [] := by
    simp [fileRecords, himg]
  refine ⟨?_, ?_, ?_, ?_⟩
  · rw [processFile_eq, hx]
    simp [fileTailEvents, himg]
  · rw [runConversion_records, runConversion_records]
    simp [List.flatMap_append, List.flatMap_cons, hx']
  · rw [runConversion_combined, runConversion_combined]
    simp [List.flatMap_append, List.flatMap_cons, hx']
  · intro f hf
    rw [runConversion_events]
    exact List.mem_append.mpr (Or.inl
      (status_mem_loopEvents "" "documents" "converted" _ f
        (xs ++ x :: ys) 0 (by simp [hf])))

theorem claim_C3_witness :
    processFile "" "documents" "converted" 3 1 ⟨"img.png", none, Except.ok "X"⟩
        RunState.emptyS =
      { RunState.emptyS with events := RunState.emptyS.events ++
          [UIEvent.progress 2 3,
           UIEvent.status ("Processing: " ++ "img.png"),
           UIEvent.warning ("⚠️ Skipping " ++ "img.png" ++ " - OpenAI API Key required")] }
    ∧ (runConversion "" ([⟨"a.txt", none, Except.ok "A"⟩] ++ ⟨"img.png", none, Except.ok "X"⟩ :: [⟨"c.txt", none, Except.ok "C"⟩])).converted_files
        = (runConversion "" ([⟨"a.txt", none, Except.ok "A"⟩] ++ [⟨"c.txt", none, Except.ok "C"⟩])).converted_files
    ∧ (runConversion "" ([⟨"a.txt", none, Except.ok "A"⟩] ++ ⟨"img.png", none, Except.ok "X"⟩ :: [⟨"c.txt", none, Except.ok "C"⟩])).combined_markdown
        = (runConversion "" ([⟨"a.txt", none, Except.ok "A"⟩] ++ [⟨"c.txt", none, Except.ok "C"⟩])).combined_markdown
    ∧ (∀ f ∈ [(⟨"c.txt", none, Except.ok "C"⟩ : FileInput)],
        UIEvent.status ("Processing: " ++ f.name)
          ∈ (runConversion "" ([⟨"a.txt", none, Except.ok "A"⟩] ++ ⟨"img.png", none, Except.ok "X"⟩ :: [⟨"c.txt", none, Except.ok "C"⟩])).events) :=
  claim_C3 "documents" "converted" 3 1 ⟨"img.png", none, Except.ok "X"⟩
    RunState.emptyS [⟨"a.txt", none, Except.ok "A"⟩] [⟨"c.txt", none, Except.ok "C"⟩]
    (by decide)

/-- Claim C4: `setup_directories` creates the raw-uploads directory
`documents` and the converted-markdown directory `converted` when they
are absent and leaves the filesystem unchanged when both exist, and a
successful conversion writes exactly one output file, at
`output_dir/(stem of the input).md`. -/
theorem claim_C4 :
    (∀ fs : List String,
       "documents" ∈ (setup_directories fs).1
       ∧ "converted" ∈ (setup_directories fs).1
       ∧ ("documents" ∈ fs → "converted" ∈ fs → (setup_directories fs).1 = fs))
    ∧ (∀ (f : FileInput) (file_path output_dir : String) (client : Option String)
         (content : String), f.convert = Except.ok content →
         (convert_to_markdown f file_path output_dir client).1
            = some (output_dir ++ "/" ++ pathStem file_path ++ ".md", content)
         ∧ writesOf (convert_to_markdown f file_path output_dir client).2
            = [(output_dir ++ "/" ++ pathStem file_path ++ ".md", content)]) := by
  constructor
  · intro fs
    refine ⟨?_, ?_, ?_⟩
    · exact mem_makedirs_of_mem _ _ _ (mem_makedirs_self fs "documents")
    · exact mem_makedirs_self _ "converted"
    · intro h1 h2
      show makedirs (makedirs fs "documents") "converted" = fs
      rw [makedirs_of_mem fs "documents" h1, makedirs_of_mem fs "converted" h2]
  · intro f file_path output_dir client content hconv
    constructor
    · simp [convert_to_markdown, hconv]
    · simp [convert_to_markdown, hconv, writesOf]

theorem claim_C4_witness :
    ("documents" ∈ (setup_directories []).1
      ∧ "converted" ∈ (setup_directories []).1
      ∧ ("documents" ∈ ([] : List String) → "converted" ∈ ([] : List String) →
          (setup_directories []).1 = []))
    ∧ ((convert_to_markdown ⟨"a.txt", none, Except.ok "A"⟩ "documents/a.txt"
          "converted" none).1 = some ("converted/a.md", "A")
       ∧ writesOf (convert_to_markdown ⟨"a.txt", none, Except.ok "A"⟩ "documents/a.txt"
          "converted" none).2 = [("converted/a.md", "A")]) := by
  have h1 := claim_C4.1 []
  have h2 := claim_C4.2 ⟨"a.txt", none, Except.ok "A"⟩ "documents/a.txt" "converted"
    none "A" rfl
  have hp : "converted" ++ "/" ++ pathStem "documents/a.txt" ++ ".md"
      = "converted/a.md" := by decide
  rw [hp] at h2
  exact ⟨h1, h2⟩

/-- Claim C5: the MarkItDown converter is constructed with the AI
client and the model `gpt-4o` if and only if the input path is
classified as an image and a client is present; otherwise (non-image or
no client) the plain converter is used; a client exists iff the session
credential is non-empty; and the client's only use is being handed to
the converter that `convert_to_markdown` invokes first thing. -/
theorem claim_C5 (file_path : String) (client : Option String) :
    (∀ c m, mkMarkItDown file_path client = Converter.withLLM c m
       ↔ (is_image_file file_path = true ∧ client = some c ∧ m = "gpt-4o"))
    ∧ ((is_image_file file_path = false ∨ client = none) →
        mkMarkItDown file_path client = Converter.plain)
    ∧ (∀ key : String, openaiClientOf key = none ↔ key = "")
    ∧ (∀ (f : FileInput) (output_dir : String),
        (convert_to_markdown f file_path output_dir client).2.head?
          = some (UIEvent.convertInvoked (mkMarkItDown file_path client) file_path)) := by
  refine ⟨?_, ?_, ?_, ?_⟩
  · intro c m
    cases client with
    | none => simp [mkMarkItDown]
    | some k =>
      by_cases himg : is_image_file file_path
      · simp only [mkMarkItDown, himg, if_true, Converter.withLLM.injEq,
          Option.some.injEq]
        constructor
        · rintro ⟨rfl, rfl⟩; exact ⟨trivial, rfl, rfl⟩
        · rintro ⟨-, rfl, rfl⟩; exact ⟨rfl, rfl⟩
      · simp [mkMarkItDown, himg]
  · intro h
    cases client with
    | none => simp [mkMarkItDown]
    | some k =>
      rcases h with h | h
      · simp [mkMarkItDown, h]
      · exact absurd h (by simp)
  · intro key
    by_cases hk : key = "" <;> simp [openaiClientOf, hk]
  · intro f output_dir
    cases hfc : f.convert <;> simp [convert_to_markdown, hfc]

theorem claim_C5_witness :
    mkMarkItDown "documents/img.png" (some "sk-1") = Converter.withLLM "sk-1" "gpt-4o"
    ∧ mkMarkItDown "documents/a.txt" (some "sk-1") = Converter.plain
    ∧ openaiClientOf "" = none
    ∧ (convert_to_markdown ⟨"img.png", none, Except.ok "X"⟩ "documents/img.png"
        "converted" (some "sk-1")).2.head?
      = some (UIEvent.convertInvoked (mkMarkItDown "documents/img.png" (some "sk-1"))
          "documents/img.png") :=
  ⟨((claim_C5 "documents/img.png" (some "sk-1")).1 "sk-1" "gpt-4o").mpr
      ⟨by decide, rfl, rfl⟩,
   (claim_C5 "documents/a.txt" (some "sk-1")).2.1 (Or.inl (by decide)),
   ((claim_C5 "x" none).2.2.1 "").mpr rfl,
   (claim_C5 "documents/img.png" (some "sk-1")).2.2.2
     ⟨"img.png", none, Except.ok "X"⟩ "converted"⟩

/-- Claim C6: pressing the convert button resets the converted-files
list and the combined buffer to empty (and sets the started flag), so
the processing step that follows starts from an empty state: its result
is a function of the uploaded files and the key alone, identical to what
it would be had the previous run's records and buffer never existed. -/
theorem claim_C6 (s : SessionState) (key : String) :
    (convertButton s).converted_files = []
    ∧ (convertButton s).combined_markdown = ""
    ∧ (convertButton s).conversion_started = true
    ∧ mainProcess key (convertButton s)
        = mainProcess key (convertButton
            { s with converted_files := [], combined_markdown := "" })
    ∧ (mainProcess key (convertButton s)).1.converted_files
        = (runConversion key s.uploaded_files).converted_files
    ∧ (mainProcess key (convertButton s)).1.combined_markdown
        = (runConversion key s.uploaded_files).combined_markdown := by
  refine ⟨rfl, rfl, rfl, rfl, ?_, ?_⟩ <;> simp [mainProcess, convertButton]

/-- Claim C7: a name whose extension yields no recognized MIME type is
classified non-image (classification looks only at the name), and it
gets the generic icon when it also matches none of the specifically
recognized extensions; a name with no extension always yields no MIME
type. -/
theorem claim_C7 :
    (∀ name : String, guess_type name = none →
      is_image_file name = false
      ∧ (strEndsWith name ".pdf" = false → strEndsWith name ".doc" = false →
         strEndsWith name ".docx" = false → strEndsWith name ".xls" = false →
         strEndsWith name ".xlsx" = false → strEndsWith name ".txt" = false →
         get_file_icon name = "📎"))
    ∧ (∀ name : String, (splitext (lastComponent name)).2 = "" →
        guess_type name = none) := by
  constructor
  · intro name h
    have himg : is_image_file name = false := by simp [is_image_file, h]
    refine ⟨himg, ?_⟩
    intro h1 h2 h3 h4 h5 h6
    simp [get_file_icon, himg, h1, h2, h3, h4, h5, h6]
  · intro name h
    simp only [guess_type, h]
    decide

theorem claim_C7_witness :
    (is_image_file "strange.xyz" = false ∧ get_file_icon "strange.xyz" = "📎")
    ∧ guess_type "noextension" = none := by
  have h := (claim_C7.1 "strange.xyz" (by decide))
  exact ⟨⟨h.1, h.2 (by decide) (by decide) (by decide) (by decide) (by decide)
      (by decide)⟩,
    claim_C7.2 "noextension" (by decide)⟩

/-- Claim C8: during the loop over the `N` uploaded files the progress
indicator reports the fraction `(idx+1)/N` (the file being processed
counted as processed) together with the status naming the file currently
being processed, for every index; and once the loop over all files
completes the progress bar and the status message are cleared — they are
the final two events of the run. -/
theorem claim_C8 (key : String) (files : List FileInput) :
    (∀ (idx : Nat) (h : idx < files.length),
      ∃ pre suf, (runConversion key files).events =
        pre ++ UIEvent.progress (idx + 1) files.length ::
               UIEvent.status ("Processing: " ++ (files.get ⟨idx, h⟩).name) :: suf)
    ∧ (∃ evs, (runConversion key files).events
        = evs ++ [UIEvent.clearProgress, UIEvent.clearStatus]) := by
  constructor
  · intro idx h
    obtain ⟨pre, suf, hp⟩ := loopEvents_progress_status key "documents" "converted"
      files.length files 0 idx h
    refine ⟨pre, suf ++ [UIEvent.clearProgress, UIEvent.clearStatus], ?_⟩
    rw [runConversion_events, hp]
    simp [List.append_assoc]
  · exact ⟨_, runConversion_events key files⟩

theorem claim_C8_witness :
    (∃ pre suf,
      (runConversion "" [⟨"a.txt", none, Except.ok "A"⟩]).events =
        pre ++ UIEvent.progress 1 1 ::
               UIEvent.status ("Processing: " ++ "a.txt") :: suf)
    ∧ (∃ evs, (runConversion "" [⟨"a.txt", none, Except.ok "A"⟩]).events
        = evs ++ [UIEvent.clearProgress, UIEvent.clearStatus]) :=
  ⟨(claim_C8 "" [⟨"a.txt", none, Except.ok "A"⟩]).1 0 (by decide),
   (claim_C8 "" [⟨"a.txt", none, Except.ok "A"⟩]).2⟩

/-- Claim C9: after a run the offered downloads are one combined
markdown file whose name embeds the timestamp
(`combined_markdown_<ts>.md`) and carries the combined buffer, plus one
file per converted record carrying exactly that record's markdown text
under `<name>.md`; every download has MIME type `text/markdown`. -/
theorem claim_C9 (key : String) (files : List FileInput) (timestamp : String) :
    (∀ d ∈ downloadsOf (runConversion key files) timestamp,
        d.mime = "text/markdown")
    ∧ (downloadsOf (runConversion key files) timestamp).head?
        = some { label := "📥 Download All as Single File",
                 payload := (runConversion key files).combined_markdown,
                 file_name := "combined_markdown_" ++ timestamp ++ ".md",
                 mime := "text/markdown" }
    ∧ (downloadsOf (runConversion key files) timestamp).tail.map Download.payload
        = (runConversion key files).converted_files.map ConvertedFile.content
    ∧ (downloadsOf (runConversion key files) timestamp).tail.map Download.file_name
        = (runConversion key files).converted_files.map (fun r => r.name ++ ".md") := by
  refine ⟨?_, rfl, ?_, ?_⟩
  · intro d hd
    simp only [downloadsOf, List.mem_cons, List.mem_map] at hd
    rcases hd with rfl | ⟨fi, -, rfl⟩ <;> rfl
  · simp [downloadsOf, List.map_map, Function.comp]
  · simp [downloadsOf, List.map_map, Function.comp]

theorem claim_C9_witness :
    (∀ d ∈ downloadsOf (runConversion "" [⟨"a.txt", none, Except.ok "A"⟩])
        "20240101_120000", d.mime = "text/markdown")
    ∧ (downloadsOf (runConversion "" [⟨"a.txt", none, Except.ok "A"⟩])
        "20240101_120000").head?
        = some { label := "📥 Download All as Single File",
                 payload := "\n## a.txt\n\nA",
                 file_name := "combined_markdown_20240101_120000.md",
                 mime := "text/markdown" }
    ∧ (downloadsOf (runConversion "" [⟨"a.txt", none, Except.ok "A"⟩])
        "20240101_120000").tail.map Download.payload = ["A"]
    ∧ (downloadsOf (runConversion "" [⟨"a.txt", none, Except.ok "A"⟩])
        "20240101_120000").tail.map Download.file_name = ["a.txt.md"] := by
  have h := claim_C9 "" [⟨"a.txt", none, Except.ok "A"⟩] "20240101_120000"
  refine ⟨h.1, ?_, ?_, ?_⟩
  · rw [h.2.1]
    decide
  · rw [h.2.2.1]
    decide
  · rw [h.2.2.2]
    decide

/-- Claim C10: two uploaded files with the same stem but different
names, both converting successfully, are written to the same output path
in the converted directory — the later write overwrites the earlier one
on disk — while two distinct records are kept in session state, each
with its own markdown content, and both contribute to the combined
buffer. -/
theorem claim_C10 (key : String) (a b : FileInput) (ca cb : String)
    (hstem : pathStem a.name = pathStem b.name)
    (hne : a.name ≠ b.name)
    (hsla : '/' ∉ a.name.toList) (hslb : '/' ∉ b.name.toList)
    (hsava : a.save_error = none) (hsavb : b.save_error = none)
    (hca : a.convert = Except.ok ca) (hcb : b.convert = Except.ok cb)
    (hia : ¬ (is_image_file a.name = true ∧ key = ""))
    (hib : ¬ (is_image_file b.name = true ∧ key = "")) :
    (runConversion key [a, b]).converted_files.map ConvertedFile.name
        = [a.name, b.name]
    ∧ (runConversion key [a, b]).converted_files.map ConvertedFile.content
        = [ca, cb]
    ∧ (runConversion key [a, b]).converted_files.map ConvertedFile.path
        = ["converted/" ++ pathStem a.name ++ ".md",
           "converted/" ++ pathStem a.name ++ ".md"]
    ∧ writesOf (runConversion key [a, b]).events
        = [("converted/" ++ pathStem a.name ++ ".md", ca),
           ("converted/" ++ pathStem a.name ++ ".md", cb)]
    ∧ lastWrite (runConversion key [a, b]).events
        ("converted/" ++ pathStem a.name ++ ".md") = some cb
    ∧ (runConversion key [a, b]).combined_markdown
        = String.intercalate "\n"
            ["\n## " ++ a.name ++ "\n", ca, "\n## " ++ b.name ++ "\n", cb] := by
  have hpa : pathStem ("documents/" ++ a.name) = pathStem a.name := by
    simpa using pathStem_prepend "documents" a.name hsla
  have hpb : pathStem ("documents/" ++ b.name) = pathStem b.name := by
    simpa using pathStem_prepend "documents" b.name hslb
  have hra : fileRecords key "documents" "converted" a
      = [{ name := a.name,
           path := "converted/" ++ pathStem a.name ++ ".md",
           content := ca, is_image := is_image_file a.name }] := by
    simp [fileRecords, hia, hsava, hca, hpa]
  have hrb : fileRecords key "documents" "converted" b
      = [{ name := b.name,
           path := "converted/" ++ pathStem a.name ++ ".md",
           content := cb, is_image := is_image_file b.name }] := by
    simp [fileRecords, hib, hsavb, hcb, hpb, hstem]
  have hta : fileTailEvents key "documents" "converted" a
      = [UIEvent.fileSaved ("documents/" ++ a.name),
         UIEvent.convertInvoked
           (mkMarkItDown ("documents/" ++ a.name) (openaiClientOf key))
           ("documents/" ++ a.name),
         UIEvent.fileWritten ("converted/" ++ pathStem a.name ++ ".md") ca] := by
    simp [fileTailEvents, hia, hsava, hca, hpa]
  have htb : fileTailEvents key "documents" "converted" b
      = [UIEvent.fileSaved ("documents/" ++ b.name),
         UIEvent.convertInvoked
           (mkMarkItDown ("documents/" ++ b.name) (openaiClientOf key))
           ("documents/" ++ b.name),
         UIEvent.fileWritten ("converted/" ++ pathStem a.name ++ ".md") cb] := by
    simp [fileTailEvents, hib, hsavb, hcb, hpb, hstem]
  have hev : (runConversion key [a, b]).events
      = loopEvents key "documents" "converted" 2 0 [a, b]
        ++ [UIEvent.clearProgress, UIEvent.clearStatus] := by
    simpa using runConversion_events key [a, b]
  refine ⟨?_, ?_, ?_, ?_, ?_, ?_⟩
  · rw [runConversion_records]
    simp [List.flatMap_cons, hra, hrb]
  · rw [runConversion_records]
    simp [List.flatMap_cons, hra, hrb]
  · rw [runConversion_records]
    simp [List.flatMap_cons, hra, hrb]
  · rw [hev]
    simp [loopEvents, hta, htb, writesOf]
  · rw [hev]
    simp [loopEvents, hta, htb, lastWrite, writesOf]
  · rw [runConversion_combined]
    simp [List.flatMap_cons, hra, hrb, blockOf]

theorem claim_C10_witness :
    (runConversion "" [⟨"report.pdf", none, Except.ok "AA"⟩,
        ⟨"report.docx", none, Except.ok "BB"⟩]).converted_files.map ConvertedFile.name
        = ["report.pdf", "report.docx"]
    ∧ (runConversion "" [⟨"report.pdf", none, Except.ok "AA"⟩,
        ⟨"report.docx", none, Except.ok "BB"⟩]).converted_files.map ConvertedFile.content
        = ["AA", "BB"]
    ∧ (runConversion "" [⟨"report.pdf", none, Except.ok "AA"⟩,
        ⟨"report.docx", none, Except.ok "BB"⟩]).converted_files.map ConvertedFile.path
        = ["converted/" ++ pathStem "report.pdf" ++ ".md",
           "converted/" ++ pathStem "report.pdf" ++ ".md"]
    ∧ writesOf (runConversion "" [⟨"report.pdf", none, Except.ok "AA"⟩,
        ⟨"report.docx", none, Except.ok "BB"⟩]).events
        = [("converted/" ++ pathStem "report.pdf" ++ ".md", "AA"),
           ("converted/" ++ pathStem "report.pdf" ++ ".md", "BB")]
    ∧ lastWrite (runConversion "" [⟨"report.pdf", none, Except.ok "AA"⟩,
        ⟨"report.docx", none, Except.ok "BB"⟩]).events
        ("converted/" ++ pathStem "report.pdf" ++ ".md") = some "BB"
    ∧ (runConversion "" [⟨"report.pdf", none, Except.ok "AA"⟩,
        ⟨"report.docx", none, Except.ok "BB"⟩]).combined_markdown
        = String.intercalate "\n"
            ["\n## " ++ "report.pdf" ++ "\n", "AA", "\n## " ++ "report.docx" ++ "\n", "BB"] :=
  claim_C10 "" ⟨"report.pdf", none, Except.ok "AA"⟩ ⟨"report.docx", none, Except.ok "BB"⟩
    "AA" "BB" (by decide) (by decide) (by decide) (by decide) rfl rfl rfl rfl
    (by decide) (by decide)

end App
